import Mathlib

/-!
# Relayer fee-grant indexer (`src/metrics-exporter/indexer.js`)

A shallow embedding of the block indexer and the properties proved about it.

Modelling conventions.

* A JavaScript number that holds a height, a gas limit or a fee amount is
  represented by the natural number it holds: the fields `gasLimit` and `amount`
  of a decoded fee are the values `parseInt` returned.  Addition of such numbers
  is `jsAdd`, which rounds the exact sum to the nearest double (`toDouble`), and
  `parseInt` applied to a number is `parseIntOfNumber`, which goes through the
  number's string form.  Overflow to `Infinity` (beyond about `1.8e308`) is not
  modelled.
* The one genuine fraction, `gasPrice`, is a `JSNumber`: a finite exact
  quotient, `Infinity` or `NaN`; rounding of the finite quotient is not modelled.
* The four SQLite tables are lists of rows in insertion order; `db.run` inserts
  are taken to succeed.
* Library calls that may throw (`Tx.decode`, `PubKey.decode`, `pubkeyToAddress`)
  are fields of `Env` returning `Option`; `none` is a thrown exception.
* Network answers are inputs: `Rpc` gives, for one loop iteration or one
  polling tick, what `GET /block?height=h` and `GET /block` return.
-/

namespace Indexer

/-! ## Data model -/

/-- Result of a JavaScript division of two non-negative integers. -/
inductive JSNumber where
  | finite (q : ℚ)
  | infinity
  | nan
  deriving DecidableEq

/-- JavaScript `a / b` on non-negative integers: `0 / 0` is `NaN`, `a / 0` with
`a > 0` is `Infinity`. -/
def jsDiv (a b : Nat) : JSNumber :=
  if b = 0 then (if a = 0 then JSNumber.nan else JSNumber.infinity)
  else JSNumber.finite ((a : ℚ) / (b : ℚ))

/-- Number of binary digits of `n`, by repeated halving (`fuel` bounds the steps). -/
def bitLengthAux : Nat → Nat → Nat
  | 0, _ => 0
  | fuel + 1, n => if n = 0 then 0 else bitLengthAux fuel (n / 2) + 1

/-- Number of binary digits of `n`. -/
def bitLength (n : Nat) : Nat := bitLengthAux n n

/-- The double nearest to the natural number `n`: `n` itself below `2^53`,
otherwise `n` rounded to 53 significant bits, to nearest with ties to the even
significand. -/
def toDouble (n : Nat) : Nat :=
  if n < 2 ^ 53 then n
  else
    let e := bitLength n - 53
    let q := n / 2 ^ e
    let r := n % 2 ^ e
    let half := 2 ^ (e - 1)
    if r < half then q * 2 ^ e
    else if half < r then (q + 1) * 2 ^ e
    else if q % 2 = 0 then q * 2 ^ e
    else (q + 1) * 2 ^ e

/-- JavaScript `a + b` on numbers that hold non-negative integers. -/
def jsAdd (a b : Nat) : Nat := toDouble (a + b)

/-- First decimal digit of `n`, by repeated division by ten. -/
def leadingDigitAux : Nat → Nat → Nat
  | 0, n => n
  | fuel + 1, n => if n < 10 then n else leadingDigitAux fuel (n / 10)

/-- First decimal digit of `n`. -/
def leadingDigit (n : Nat) : Nat := leadingDigitAux n n

/-- Number of decimal digits of `n`, by repeated division by ten. -/
def decimalLengthAux : Nat → Nat → Nat
  | 0, _ => 0
  | fuel + 1, n => if n = 0 then 0 else decimalLengthAux fuel (n / 10) + 1

/-- Number of decimal digits of `n`. -/
def decimalLength (n : Nat) : Nat := decimalLengthAux n n

/-- Search for the digits `Number::toString` prints: with `k` significant
digits, the two neighbours `lo ≤ x ≤ hi` of `x` are tried; the first `k` for
which one of them reads back as `x` gives the result, the nearer one when both
do (the even one on a tie). -/
def shortestDecimalAux (x len : Nat) : Nat → Nat → Nat
  | 0, _ => x
  | fuel + 1, k =>
    let p := 10 ^ (len - k)
    let lo := x / p * p
    let hi := lo + p
    if toDouble lo = x then
      if toDouble hi = x then
        if hi - x < x - lo then hi
        else if x - lo < hi - x then lo
        else if (x / p) % 2 = 0 then lo else hi
      else lo
    else if toDouble hi = x then hi
    else shortestDecimalAux x len fuel (k + 1)

/-- The value of the decimal with the fewest significant digits that reads
back as the double `x`: the digits of `String(x)`. -/
def shortestDecimal (x : Nat) : Nat :=
  shortestDecimalAux x (decimalLength x) (decimalLength x) 1

/-- JavaScript `parseInt(x, 10)` applied to a number `x` that holds a
non-negative integer.  The number is first turned into a string.  Below `10^21`
the string is plain decimal digits and reads back as `x`.  From `10^21` on the
string is in exponent form (`1e+21`, `2.5e+22`), and `parseInt` stops at the
first character that is not a digit: the result is the leading digit of the
printed digits. -/
def parseIntOfNumber (x : Nat) : Nat :=
  if x < 10 ^ 21 then x else leadingDigit (shortestDecimal x)

/-- The fields of `config.js` the indexer logic reads. -/
structure Config where
  granter_address : String
  indexer_start_block_height : Nat

/-- A protobuf `Any`: message or public key. -/
structure AnyMsg where
  typeUrl : String
  value : List Nat
  deriving DecidableEq

/-- A fee coin; `amount` is the number `parseInt` reads from the decimal string. -/
structure Coin where
  denom : String
  amount : Nat
  deriving DecidableEq

/-- The `Fee` of a decoded transaction (`cosmjs-types`: no `gasUsed` field);
`gasLimit` is the number `parseInt` reads from the gas limit. -/
structure Fee where
  amount : List Coin
  gasLimit : Nat
  granter : String
  deriving DecidableEq

structure SignerInfo where
  publicKey : Option AnyMsg
  deriving DecidableEq

structure AuthInfo where
  signerInfos : List SignerInfo
  fee : Option Fee
  deriving DecidableEq

structure TxBody where
  messages : List AnyMsg
  deriving DecidableEq

/-- Result of `Tx.decode`; `body` and `authInfo` are optional on the wire. -/
structure Tx where
  body : Option TxBody
  authInfo : Option AuthInfo
  deriving DecidableEq

/-- Configuration and the library functions the indexer calls. -/
structure Env where
  config : Config
  /-- The call `Tx.decode(Buffer.from(tx, 'base64'))`; `none` when it throws. -/
  decodeTx : String → Option Tx
  /-- The call `PubKey.toJSON(PubKey.decode(v)).key.toString()`; `none` when it throws. -/
  pubKeyDecode : List Nat → Option String
  /-- The call `pubkeyToAddress(pubkey, config.addr_prefix)`; `none` when it throws. -/
  pubkeyToAddress : String → Option String

/-- Row of `relayer_transactions`; `msg_array` holds the list that
`JSON.stringify` serialises. -/
structure TransactionRow where
  block_height : Nat
  block_time : String
  relayer_address : String
  msg_array : List String
  gas_wanted : Nat
  gas_used : Nat
  fee_amount : Nat
  gas_price : JSNumber
  deriving DecidableEq

/-- Row of `total_metrics`. -/
structure TotalMetricsRow where
  block_height : Nat
  block_time : String
  total_gas_wanted : Nat
  total_gas_used : Nat
  total_fee : Nat
  transaction_count : Nat
  deriving DecidableEq

/-- Row of `last_block`. -/
structure LastBlockRow where
  block_height : Nat
  block_time : String
  deriving DecidableEq

/-- Row of `grantee_misbehaviors`. -/
structure MisbehaviorRow where
  block_height : Nat
  block_time : String
  grantee_address : String
  msg_array : String
  deriving DecidableEq

/-- Module-level variables of `indexer.js` together with the database. -/
structure State where
  latestBlockHeight : Nat
  latestBlockTime : String
  isCatchingUp : Bool
  totalGasWanted : Nat
  totalGasUsed : Nat
  totalFee : Nat
  transactionCount : Nat
  relayer_transactions : List TransactionRow
  total_metrics : List TotalMetricsRow
  last_block : List LastBlockRow
  grantee_misbehaviors : List MisbehaviorRow
  deriving DecidableEq

/-- Values of the module-level variables at process start, over a database
whose tables hold the given rows. -/
def startState (txs : List TransactionRow) (tm : List TotalMetricsRow)
    (lb : List LastBlockRow) (gm : List MisbehaviorRow) : State :=
  { latestBlockHeight := 0, latestBlockTime := "", isCatchingUp := true,
    totalGasWanted := 0, totalGasUsed := 0, totalFee := 0, transactionCount := 0,
    relayer_transactions := txs, total_metrics := tm, last_block := lb,
    grantee_misbehaviors := gm }

structure Header where
  height : Nat
  time : String
  deriving DecidableEq

/-- The `data` part of a block; `txs` may be absent (`null`). -/
structure BlockData where
  txs : Option (List String)
  deriving DecidableEq

structure Block where
  header : Header
  data : BlockData
  deriving DecidableEq

/-- What the node answers during one loop iteration or polling tick. -/
structure Rpc where
  /-- The answer to `getBlock(height)`: `none` when the request fails. -/
  getBlock : Nat → Option Block
  /-- Header of `GET /block`; `none` when the request fails. -/
  latest : Option Header

/-! ## Store operations -/

def saveTransactionData (s : State) (row : TransactionRow) : State :=
  { s with relayer_transactions := s.relayer_transactions ++ [row] }

def saveTotalMetricsData (s : State) (row : TotalMetricsRow) : State :=
  { s with total_metrics := s.total_metrics ++ [row] }

def saveLastBlockData (s : State) (blockHeight : Nat) (blockTime : String) : State :=
  { s with last_block := s.last_block ++ [⟨blockHeight, blockTime⟩] }

def saveGranteeMisbehaviorData (s : State) (row : MisbehaviorRow) : State :=
  { s with grantee_misbehaviors := s.grantee_misbehaviors ++ [row] }

/-! ## Transaction processing -/

/-- Whether `hay` starts with `needle`. -/
def startsWithChars : List Char → List Char → Bool
  | [], _ => true
  | _ :: _, [] => false
  | a :: as, b :: bs => a == b && startsWithChars as bs

/-- Whether `needle` occurs in `hay` as a contiguous run. -/
def includesChars (needle : List Char) : List Char → Bool
  | [] => startsWithChars needle []
  | c :: cs => startsWithChars needle (c :: cs) || includesChars needle cs

/-- JavaScript `s.includes(sub)`. -/
def includes (s sub : String) : Bool := includesChars sub.data s.data

def msgTransfer : String := "/ibc.applications.transfer.v1.MsgTransfer"

/-- The test applied to each message in `processTransaction`. -/
def isRelayMsg (typeUrl : String) : Bool :=
  includes typeUrl "/ibc" && typeUrl != msgTransfer

def deriveAddressFromPubkey (env : Env) (pubkeyValue : List Nat) : Option String :=
  match env.pubKeyDecode pubkeyValue with
  | none => none
  | some key => env.pubkeyToAddress key

/-- The expression `deriveAddressFromPubkey(txDecoded.authInfo.signerInfos[0].publicKey.value)`;
`none` when any step throws. -/
def signerAddress (env : Env) (authInfo : AuthInfo) : Option String :=
  match authInfo.signerInfos with
  | [] => none
  | si :: _ =>
    match si.publicKey with
    | none => none
    | some pk => deriveAddressFromPubkey env pk.value

/-- The expression `parseInt(fee.amount?.[0]?.amount || '0')`. -/
def feeAmountOf (fee : Fee) : Nat :=
  match fee.amount with
  | [] => 0
  | c :: _ => c.amount

/-- The misbehaviour `typeString`: the quoted types joined by `", "` in brackets. -/
def typeString (typeArray : List String) : String :=
  "[" ++ ", ".intercalate (typeArray.map (fun t =>
    String.singleton (Char.ofNat 34) ++ t ++ String.singleton (Char.ofNat 34))) ++ "]"

/-- The function `processTransaction`: new state and returned boolean.  Every
exception inside the `try` leads to `return false` with the writes made so far. -/
def processTransaction (env : Env) (s : State) (tx : String) : State × Bool :=
  match env.decodeTx tx with
  | none => (s, false)
  | some txDecoded =>
    match txDecoded.body with
    | none => (s, false)
    | some body =>
      let typeArray := body.messages.map (fun msg => msg.typeUrl)
      let isRelayerTx := body.messages.any (fun msg => isRelayMsg msg.typeUrl)
      match txDecoded.authInfo with
      | none => (s, false)
      | some authInfo =>
        match authInfo.fee with
        | none => (s, false)
        | some fee =>
          if isRelayerTx && fee.granter == env.config.granter_address then
            let gasWanted := fee.gasLimit
            let gasUsed := 0
            let feeAmount := feeAmountOf fee
            let gasPrice := jsDiv feeAmount gasWanted
            match signerAddress env authInfo with
            | none => (s, false)
            | some relayerAdress =>
              let s1 := saveTransactionData s
                { block_height := s.latestBlockHeight, block_time := s.latestBlockTime,
                  relayer_address := relayerAdress, msg_array := typeArray,
                  gas_wanted := gasWanted, gas_used := gasUsed, fee_amount := feeAmount,
                  gas_price := gasPrice }
              ({ s1 with
                  totalGasWanted := jsAdd s1.totalGasWanted gasWanted,
                  totalGasUsed := jsAdd s1.totalGasUsed gasUsed,
                  totalFee := jsAdd s1.totalFee (parseIntOfNumber feeAmount),
                  transactionCount := jsAdd s1.transactionCount 1 }, true)
          else if !isRelayerTx && fee.granter == env.config.granter_address then
            match signerAddress env authInfo with
            | none => (s, false)
            | some granteeAddress =>
              -- `granteeTotalMisbehaviourTxs.labels(..).inc()` follows the insert; whether it
              -- succeeds or throws into the `catch`, the function goes on to `return false`
              (saveGranteeMisbehaviorData s
                { block_height := s.latestBlockHeight, block_time := s.latestBlockTime,
                  grantee_address := granteeAddress, msg_array := typeString typeArray }, false)
          else (s, false)

/-- The `for` loop of `processBlock`: state and `blockHasRelayerTx` after the
transactions `txs`, starting from `(s, flag)`. -/
def processTxs (env : Env) : State × Bool → List String → State × Bool
  | acc, [] => acc
  | (s, flag), tx :: rest =>
    let r := processTransaction env s tx
    processTxs env (r.1, if r.2 then true else flag) rest

/-- The function `processBlock`. -/
def processBlock (env : Env) (s : State) (blockData : BlockData) : State :=
  let r := match blockData.txs with
    | none => (s, false)
    | some txs => processTxs env (s, false) txs
  if r.2 then
    let s1 := saveTotalMetricsData r.1
      { block_height := r.1.latestBlockHeight, block_time := r.1.latestBlockTime,
        total_gas_wanted := r.1.totalGasWanted, total_gas_used := r.1.totalGasUsed,
        total_fee := r.1.totalFee, transaction_count := r.1.transactionCount }
    { s1 with totalGasWanted := 0, totalGasUsed := 0, totalFee := 0, transactionCount := 0 }
  else r.1

/-! ## The indexer loop -/

/-- The function `updateLatestBlockHeight`; a failed request changes nothing. -/
def updateLatestBlockHeight (s : State) (latest : Option Header) : State :=
  match latest with
  | none => s
  | some h => { s with latestBlockHeight := h.height, latestBlockTime := h.time }

/-- What `db.get` hands to its callback for the `MAX(block_height)` query. -/
inductive QueryResult where
  | error
  | noRow
  | row (max_height : Option Nat)

/-- SQLite semantics of `SELECT MAX(block_height) FROM last_block`: always one
row, whose value is `NULL` over an empty table. -/
def selectMaxHeight (last_block : List LastBlockRow) : QueryResult :=
  QueryResult.row ((last_block.map (fun r => r.block_height)).max?)

/-- A JavaScript value returned by `getLatestBlockHeightFromDB`. -/
inductive DbHeight where
  | jsFalse
  | jsNull
  | num (n : Nat)

def getLatestBlockHeightFromDB (cfg : Config) (q : QueryResult) : DbHeight :=
  match q with
  | QueryResult.error => DbHeight.jsFalse
  | QueryResult.noRow => DbHeight.num cfg.indexer_start_block_height
  | QueryResult.row none => DbHeight.jsNull
  | QueryResult.row (some n) => DbHeight.num n

/-- The start-up part of `indexer`: the value of `currentHeight` on entry to
the catch-up loop. -/
def initialHeight (cfg : Config) (h : DbHeight) : Nat :=
  match h with
  | DbHeight.jsFalse => cfg.indexer_start_block_height
  | DbHeight.jsNull => cfg.indexer_start_block_height
  | DbHeight.num n => if n = 0 then cfg.indexer_start_block_height else n + 1

/-- The first height the indexer fetches over a database with the given
`last_block` table. -/
def resumeHeight (cfg : Config) (last_block : List LastBlockRow) : Nat :=
  initialHeight cfg (getLatestBlockHeightFromDB cfg (selectMaxHeight last_block))

/-- The loop variable `currentHeight` together with the module state. -/
structure Loop where
  st : State
  currentHeight : Nat
  deriving DecidableEq

/-- One iteration of the `while (isCatchingUp)` loop.  With no block,
`block.header` throws, the `catch` logs, and the code after the `try` runs. -/
def catchUpIteration (env : Env) (rpc : Rpc) (l : Loop) : Loop :=
  let s1 := match rpc.getBlock l.currentHeight with
    | some block =>
      saveLastBlockData (processBlock env l.st block.data) block.header.height block.header.time
    | none => l.st
  let s2 := updateLatestBlockHeight s1 rpc.latest
  let s3 := if l.currentHeight = s2.latestBlockHeight then { s2 with isCatchingUp := false } else s2
  { st := s3, currentHeight := l.currentHeight + 1 }

/-- The catch-up loop over the node answers `rpcs`, one per iteration; it stops
when `isCatchingUp` is false or the answers are used up. -/
def catchUp (env : Env) : List Rpc → Loop → Loop
  | [], l => l
  | rpc :: rest, l =>
    if l.st.isCatchingUp then catchUp env rest (catchUpIteration env rpc l) else l

/-- How a polling callback ends: normally, or with the rejection raised by
`block.header` on a missing block. -/
inductive TickResult where
  | done (l : Loop)
  | rejected (l : Loop)
  deriving DecidableEq

/-- One run of the `setInterval` callback. -/
def pollTick (env : Env) (rpc : Rpc) (l : Loop) : TickResult :=
  let s1 := updateLatestBlockHeight l.st rpc.latest
  if l.currentHeight ≤ s1.latestBlockHeight then
    match rpc.getBlock l.currentHeight with
    | some block =>
      TickResult.done
        { st := saveLastBlockData (processBlock env s1 block.data)
                  block.header.height block.header.time,
          currentHeight := l.currentHeight + 1 }
    | none => TickResult.rejected { st := s1, currentHeight := l.currentHeight }
  else TickResult.done { st := s1, currentHeight := l.currentHeight }

/-- Blocks handed to `processBlock` one after another, each followed by the
refresh of the latest height that both loops perform between blocks. -/
def processBlocks (env : Env) : State → List (BlockData × Option Header) → State
  | s, [] => s
  | s, (b, latest) :: rest =>
    processBlocks env (updateLatestBlockHeight (processBlock env s b) latest) rest

/-! ## Specification-side vocabulary -/

/-- The three labels of the classifier. -/
inductive Outcome where
  | Relayer
  | Misbehavior
  | Irrelevant
  deriving DecidableEq

/-- The outcome observed from one call `r = processTransaction env s tx`:
Relayer when it returns `true` (what `processBlock` reads as `isRelayerTx`),
Misbehavior when it wrote to `grantee_misbehaviors`, Irrelevant otherwise. -/
def outcome (s : State) (r : State × Bool) : Outcome :=
  if r.2 then Outcome.Relayer
  else if r.1.grantee_misbehaviors = s.grantee_misbehaviors then Outcome.Irrelevant
  else Outcome.Misbehavior

/-- The classifier as the specification words it: the granter decides whether
the transaction counts at all, a relay candidate is any message type that has
the marker and is not the token transfer. -/
def classify (cfg : Config) (types : List String) (granter : String) : Outcome :=
  if granter = cfg.granter_address then
    (if types.any (fun t => includes t "/ibc" && t != msgTransfer) then Outcome.Relayer
     else Outcome.Misbehavior)
  else Outcome.Irrelevant

/-- What `processTransaction` records of a transaction it handles as Relayer,
apart from the block height and time. -/
structure RelayerTx where
  relayer_address : String
  msg_array : List String
  gas_wanted : Nat
  gas_used : Nat
  fee_amount : Nat

/-- The parts of a raw transaction that `processTransaction` reads before it
branches; `none` when one of the reads throws. -/
def decodedParts (env : Env) (tx : String) : Option (TxBody × AuthInfo × Fee) :=
  match env.decodeTx tx with
  | none => none
  | some txDecoded =>
    match txDecoded.body, txDecoded.authInfo with
    | some body, some authInfo =>
      match authInfo.fee with
      | some fee => some (body, authInfo, fee)
      | none => none
    | _, _ => none

/-- The transactions that reach the end of the Relayer branch. -/
def asRelayer (env : Env) (tx : String) : Option RelayerTx :=
  match decodedParts env tx with
  | none => none
  | some (body, authInfo, fee) =>
    if body.messages.any (fun msg => isRelayMsg msg.typeUrl)
        && fee.granter == env.config.granter_address then
      match signerAddress env authInfo with
      | none => none
      | some a =>
        some { relayer_address := a, msg_array := body.messages.map (fun msg => msg.typeUrl),
               gas_wanted := fee.gasLimit, gas_used := 0, fee_amount := feeAmountOf fee }
    else none

/-- The transactions that reach the insert of the Misbehavior branch: grantee
address and message type string. -/
def asMisbehavior (env : Env) (tx : String) : Option (String × String) :=
  match decodedParts env tx with
  | none => none
  | some (body, authInfo, fee) =>
    if !(body.messages.any (fun msg => isRelayMsg msg.typeUrl))
        && fee.granter == env.config.granter_address then
      match signerAddress env authInfo with
      | none => none
      | some a => some (a, typeString (body.messages.map (fun msg => msg.typeUrl)))
    else none

/-- The `relayer_transactions` row of a Relayer transaction at a given height and time. -/
def RelayerTx.toRow (h : Nat) (t : String) (r : RelayerTx) : TransactionRow :=
  { block_height := h, block_time := t, relayer_address := r.relayer_address,
    msg_array := r.msg_array, gas_wanted := r.gas_wanted, gas_used := r.gas_used,
    fee_amount := r.fee_amount, gas_price := jsDiv r.fee_amount r.gas_wanted }

/-- The Relayer transactions of a block, in block order. -/
def relayerTxs (env : Env) (b : BlockData) : List RelayerTx :=
  (b.txs.getD []).filterMap (asRelayer env)

/-- The Misbehavior rows of a block at a given height and time, in block order. -/
def misbehaviorRows (env : Env) (h : Nat) (t : String) (b : BlockData) : List MisbehaviorRow :=
  ((b.txs.getD []).filterMap (asMisbehavior env)).map
    (fun p => { block_height := h, block_time := t, grantee_address := p.1, msg_array := p.2 })

/-- The state after the Relayer transactions `rs` and the Misbehavior rows
`ms` have been recorded. -/
def recordAll (s : State) (rs : List RelayerTx) (ms : List MisbehaviorRow) : State :=
  { s with
    totalGasWanted := rs.foldl (fun acc r => jsAdd acc r.gas_wanted) s.totalGasWanted,
    totalGasUsed := rs.foldl (fun acc r => jsAdd acc r.gas_used) s.totalGasUsed,
    totalFee := rs.foldl (fun acc r => jsAdd acc (parseIntOfNumber r.fee_amount)) s.totalFee,
    transactionCount := rs.foldl (fun acc _ => jsAdd acc 1) s.transactionCount,
    relayer_transactions :=
      s.relayer_transactions ++ rs.map (RelayerTx.toRow s.latestBlockHeight s.latestBlockTime),
    grantee_misbehaviors := s.grantee_misbehaviors ++ ms }

/-- All four running counters are zero. -/
def countersZero (s : State) : Prop :=
  s.totalGasWanted = 0 ∧ s.totalGasUsed = 0 ∧ s.totalFee = 0 ∧ s.transactionCount = 0

/-- The Relayer transactions of a sequence of blocks, in processing order. -/
def relayerTxsOfBlocks (env : Env) : List BlockData → List RelayerTx
  | [] => []
  | b :: bs => relayerTxs env b ++ relayerTxsOfBlocks env bs

/-- The heights the catch-up loop passes to `getBlock`, in order, over the node
answers `rpcs`. -/
def catchUpFetches (env : Env) : List Rpc → Loop → List Nat
  | [], _ => []
  | rpc :: rest, l =>
    if l.st.isCatchingUp then
      l.currentHeight :: catchUpFetches env rest (catchUpIteration env rpc l)
    else []

/-- The effect on store and counters of handling a fetched block without
Relayer transaction: one checkpoint row with the header's height and time, the
Misbehavior rows of the block, and nothing else. -/
def QuietBlockEffect (env : Env) (before after : State) (block : Block) : Prop :=
  after.last_block = before.last_block ++ [⟨block.header.height, block.header.time⟩] ∧
  after.total_metrics = before.total_metrics ∧
  after.relayer_transactions = before.relayer_transactions ∧
  after.totalGasWanted = before.totalGasWanted ∧
  after.totalGasUsed = before.totalGasUsed ∧
  after.totalFee = before.totalFee ∧
  after.transactionCount = before.transactionCount ∧
  after.grantee_misbehaviors = before.grantee_misbehaviors ++
    misbehaviorRows env before.latestBlockHeight before.latestBlockTime block.data ∧
  (misbehaviorRows env before.latestBlockHeight before.latestBlockTime block.data).length =
    (block.data.txs.getD []).countP
      (fun tx => decide (outcome before (processTransaction env before tx) = Outcome.Misbehavior))

/-- Store and counters of `after` are those of `before`. -/
def SameStore (before after : State) : Prop :=
  after.last_block = before.last_block ∧
  after.total_metrics = before.total_metrics ∧
  after.relayer_transactions = before.relayer_transactions ∧
  after.grantee_misbehaviors = before.grantee_misbehaviors ∧
  after.totalGasWanted = before.totalGasWanted ∧
  after.totalGasUsed = before.totalGasUsed ∧
  after.totalFee = before.totalFee ∧
  after.transactionCount = before.transactionCount

/-- The loop state a polling callback leaves behind. -/
def TickResult.loop : TickResult → Loop
  | TickResult.done l => l
  | TickResult.rejected l => l

/-- The state in which `indexer` enters the catch-up loop at process start,
over a database whose tables hold the given rows. -/
def indexerStart (cfg : Config) (txs : List TransactionRow) (tm : List TotalMetricsRow)
    (lb : List LastBlockRow) (gm : List MisbehaviorRow) : Loop :=
  { st := startState txs tm lb gm, currentHeight := resumeHeight cfg lb }

/-! ## Sample data -/

def recvPacket : String := "/ibc.core.channel.v1.MsgRecvPacket"

def sampleTx (types : List String) (granter : String) (gasLimit : Nat) (fee : List Nat)
    (key : Option (List Nat)) : Tx :=
  { body := some { messages := types.map (fun t => { typeUrl := t, value := [] }) },
    authInfo := some
      { signerInfos := [{ publicKey := key.map (fun k => { typeUrl := "/cosmos.crypto.secp256k1.PubKey", value := k }) }],
        fee := some { amount := fee.map (fun a => { denom := "uatom", amount := a }),
                      gasLimit := gasLimit, granter := granter } } }

/-- An environment with granter `"granter1"`, start height 500 and a handful of
recognised raw transactions. -/
def sampleEnv : Env :=
  { config := { granter_address := "granter1", indexer_start_block_height := 500 },
    decodeTx := fun raw =>
      if raw = "relay" then some (sampleTx [recvPacket] "granter1" 100000 [250] (some [2, 7]))
      else if raw = "relay0" then some (sampleTx [recvPacket] "granter1" 0 [250] (some [2, 7]))
      else if raw = "relayNoKey" then some (sampleTx [recvPacket] "granter1" 100000 [250] none)
      else if raw = "transfer" then some (sampleTx [msgTransfer] "granter1" 90000 [100] (some [2, 7]))
      else if raw = "other" then some (sampleTx [recvPacket] "someoneElse" 90000 [100] (some [2, 7]))
      else if raw = "feeBig" then
        some (sampleTx [recvPacket] "granter1" 100000 [9007199254740992] (some [2, 7]))
      else if raw = "feeOne" then some (sampleTx [recvPacket] "granter1" 100000 [1] (some [2, 7]))
      else if raw = "fee1e21" then
        some (sampleTx [recvPacket] "granter1" 100000 [1000000000000000000000] (some [2, 7]))
      else none,
    pubKeyDecode := fun v => if v = [] then none else some "A",
    pubkeyToAddress := fun k => some ("addr" ++ k) }

def transferFee : Fee :=
  { amount := [{ denom := "uatom", amount := 100 }], gasLimit := 90000, granter := "granter1" }

def transferAuthInfo : AuthInfo :=
  { signerInfos := [{ publicKey := some { typeUrl := "/cosmos.crypto.secp256k1.PubKey", value := [2, 7] } }],
    fee := some transferFee }

def transferBody : TxBody := { messages := [{ typeUrl := msgTransfer, value := [] }] }

/-- What `"transfer"` decodes to in `sampleEnv`. -/
def transferTx : Tx := { body := some transferBody, authInfo := some transferAuthInfo }

def relayFee : Fee :=
  { amount := [{ denom := "uatom", amount := 250 }], gasLimit := 100000, granter := "granter1" }

def relayAuthInfo : AuthInfo :=
  { signerInfos := [{ publicKey := some { typeUrl := "/cosmos.crypto.secp256k1.PubKey", value := [2, 7] } }],
    fee := some relayFee }

def relayBody : TxBody := { messages := [{ typeUrl := recvPacket, value := [] }] }

/-- What `"relay"` decodes to in `sampleEnv`. -/
def relayTx : Tx := { body := some relayBody, authInfo := some relayAuthInfo }

/-- Process start over an empty database. -/
def s0 : State := startState [] [] [] []

/-- A node whose every block request fails while its tip is at 200. -/
def failingRpc : Rpc :=
  { getBlock := fun _ => none, latest := some { height := 200, time := "t200" } }

/-- A node that serves an empty block at every height while its tip is at 7. -/
def tipRpc : Rpc :=
  { getBlock := fun h => some { header := { height := h, time := "t" }, data := { txs := some [] } },
    latest := some { height := 7, time := "t7" } }

/-- Block 100 with one Relayer and one Misbehavior transaction. -/
def block100 : Block :=
  { header := { height := 100, time := "2024-01-01T00:00:00Z" },
    data := { txs := some ["relay", "transfer"] } }

/-- Block 101 without Relayer transaction. -/
def block101 : Block :=
  { header := { height := 101, time := "2024-01-01T00:00:06Z" },
    data := { txs := some ["transfer", "other", "garbage"] } }

/-- A node that serves `block100` and `block101` while its tip is at 250. -/
def rpc100 : Rpc :=
  { getBlock := fun h =>
      if h = 100 then some block100 else if h = 101 then some block101 else none,
    latest := some { height := 250, time := "2024-01-02T00:00:00Z" } }

/-! ## How the source functions act on the state -/

theorem recordAll_nil (s : State) : recordAll s [] [] = s := by
  simp [recordAll]

theorem processTransaction_eq (env : Env) (s : State) (tx : String) :
    processTransaction env s tx =
      match asRelayer env tx with
      | some r => (recordAll s [r] [], true)
      | none =>
        match asMisbehavior env tx with
        | some p =>
          (recordAll s [] [{ block_height := s.latestBlockHeight, block_time := s.latestBlockTime,
                             grantee_address := p.1, msg_array := p.2 }], false)
        | none => (s, false) := by
  unfold processTransaction asRelayer asMisbehavior decodedParts
  cases env.decodeTx tx with
  | none => rfl
  | some txd =>
    obtain ⟨body, authInfo⟩ := txd
    cases body with
    | none => rfl
    | some body =>
      cases authInfo with
      | none => rfl
      | some authInfo =>
        obtain ⟨sis, fee⟩ := authInfo
        cases fee with
        | none => rfl
        | some fee =>
          simp only
          cases hrel : body.messages.any (fun msg => isRelayMsg msg.typeUrl) <;>
            cases hg : (fee.granter == env.config.granter_address) <;>
            cases hsig : signerAddress env { signerInfos := sis, fee := some fee } <;>
            simp [hsig, recordAll, saveTransactionData, saveGranteeMisbehaviorData, RelayerTx.toRow]

theorem asMisbehavior_of_asRelayer (env : Env) (tx : String) (r : RelayerTx)
    (h : asRelayer env tx = some r) : asMisbehavior env tx = none := by
  unfold asRelayer at h
  unfold asMisbehavior
  cases hd : decodedParts env tx with
  | none => rfl
  | some p =>
    obtain ⟨body, authInfo, fee⟩ := p
    rw [hd] at h
    simp only at h ⊢
    cases hrel : body.messages.any (fun msg => isRelayMsg msg.typeUrl) <;> simp [hrel] at h ⊢

theorem recordAll_cons_relayer (s : State) (r : RelayerTx) (rs : List RelayerTx)
    (ms : List MisbehaviorRow) :
    recordAll (recordAll s [r] []) rs ms = recordAll s (r :: rs) ms := by
  simp [recordAll]

theorem recordAll_cons_misbehavior (s : State) (m : MisbehaviorRow) (rs : List RelayerTx)
    (ms : List MisbehaviorRow) :
    recordAll (recordAll s [] [m]) rs ms = recordAll s rs (m :: ms) := by
  simp [recordAll]

theorem processTxs_eq (env : Env) (txs : List String) (s : State) (flag : Bool) :
    processTxs env (s, flag) txs =
      (recordAll s (txs.filterMap (asRelayer env))
        ((txs.filterMap (asMisbehavior env)).map
          (fun p => { block_height := s.latestBlockHeight, block_time := s.latestBlockTime,
                      grantee_address := p.1, msg_array := p.2 })),
       flag || !(txs.filterMap (asRelayer env)).isEmpty) := by
  induction txs generalizing s flag with
  | nil => simp [processTxs, recordAll_nil]
  | cons tx rest ih =>
    rw [processTxs, processTransaction_eq]
    cases hr : asRelayer env tx with
    | some r =>
      have hm := asMisbehavior_of_asRelayer env tx r hr
      simp only [ih, List.filterMap_cons, hr, hm, recordAll_cons_relayer]
      simp [recordAll]
    | none =>
      cases hm : asMisbehavior env tx with
      | some p =>
        simp only [ih, List.filterMap_cons, hr, hm, recordAll_cons_misbehavior]
        simp [recordAll]
      | none =>
        simp only [ih, List.filterMap_cons, hr, hm]
        simp

theorem processBlock_eq (env : Env) (s : State) (b : BlockData) :
    processBlock env s b =
      if (relayerTxs env b).isEmpty then
        recordAll s [] (misbehaviorRows env s.latestBlockHeight s.latestBlockTime b)
      else
        { recordAll s (relayerTxs env b)
            (misbehaviorRows env s.latestBlockHeight s.latestBlockTime b) with
          total_metrics := s.total_metrics ++
            [{ block_height := s.latestBlockHeight, block_time := s.latestBlockTime,
               total_gas_wanted :=
                 (relayerTxs env b).foldl (fun acc r => jsAdd acc r.gas_wanted) s.totalGasWanted,
               total_gas_used :=
                 (relayerTxs env b).foldl (fun acc r => jsAdd acc r.gas_used) s.totalGasUsed,
               total_fee :=
                 (relayerTxs env b).foldl
                   (fun acc r => jsAdd acc (parseIntOfNumber r.fee_amount)) s.totalFee,
               transaction_count :=
                 (relayerTxs env b).foldl (fun acc _ => jsAdd acc 1) s.transactionCount }],
          totalGasWanted := 0, totalGasUsed := 0, totalFee := 0, transactionCount := 0 } := by
  unfold processBlock relayerTxs misbehaviorRows
  cases htx : b.txs with
  | none => simp [recordAll]
  | some txs =>
    simp only [processTxs_eq, Option.getD_some, Bool.false_or]
    cases hrs : List.filterMap (asRelayer env) txs with
    | nil => simp [recordAll]
    | cons r rs => simp [recordAll, saveTotalMetricsData]

/-! ## Classification -/

theorem any_isRelayMsg_iff (msgs : List AnyMsg) :
    msgs.any (fun msg => isRelayMsg msg.typeUrl) = true ↔
      ∃ m ∈ msgs, includes m.typeUrl "/ibc" = true ∧ m.typeUrl ≠ msgTransfer := by
  simp [List.any_eq_true, isRelayMsg]

/-- C1 (as stated, refuted): the transaction `"relayNoKey"` decodes to the single
message type `/ibc.core.channel.v1.MsgRecvPacket` with the configured granter, so
message types and granter call for Relayer, yet its signer carries no public
key: `processTransaction` returns `false` and writes nothing. -/
theorem outcome_not_decided_by_types_and_granter :
    sampleEnv.decodeTx "relayNoKey" = some (sampleTx [recvPacket] "granter1" 100000 [250] none) ∧
    sampleEnv.config.granter_address = "granter1" ∧
    includes recvPacket "/ibc" = true ∧ recvPacket ≠ msgTransfer ∧
    classify sampleEnv.config [recvPacket] "granter1" = Outcome.Relayer ∧
    processTransaction sampleEnv s0 "relayNoKey" = (s0, false) ∧
    outcome s0 (processTransaction sampleEnv s0 "relayNoKey") = Outcome.Irrelevant := by
  decide

/-- C1 (amended): for every transaction that decodes with a body and a fee,
`processTransaction` produces exactly one of three outcomes, decided by the
message types, the granter and whether the signer address can be derived:
Relayer iff the granter is the configured one, some message type contains
`/ibc` and is not the transfer type, and the address is derivable; Misbehavior
iff the granter is the configured one, no message type qualifies, and the
address is derivable; Irrelevant iff the granter differs or the address is not
derivable, and then the state (every table, every counter) is unchanged.  With
a derivable address the outcome is the one the classifier rule gives. -/
theorem outcome_of_decoded (env : Env) (s : State) (tx : String) (txDecoded : Tx)
    (body : TxBody) (authInfo : AuthInfo) (fee : Fee)
    (hd : env.decodeTx tx = some txDecoded) (hb : txDecoded.body = some body)
    (ha : txDecoded.authInfo = some authInfo) (hf : authInfo.fee = some fee) :
    (outcome s (processTransaction env s tx) = Outcome.Relayer ↔
      fee.granter = env.config.granter_address ∧
      (∃ m ∈ body.messages, includes m.typeUrl "/ibc" = true ∧ m.typeUrl ≠ msgTransfer) ∧
      (signerAddress env authInfo).isSome = true) ∧
    (outcome s (processTransaction env s tx) = Outcome.Misbehavior ↔
      fee.granter = env.config.granter_address ∧
      (¬ ∃ m ∈ body.messages, includes m.typeUrl "/ibc" = true ∧ m.typeUrl ≠ msgTransfer) ∧
      (signerAddress env authInfo).isSome = true) ∧
    (outcome s (processTransaction env s tx) = Outcome.Irrelevant ↔
      fee.granter ≠ env.config.granter_address ∨ signerAddress env authInfo = none) ∧
    (outcome s (processTransaction env s tx) = Outcome.Irrelevant →
      processTransaction env s tx = (s, false)) ∧
    ((signerAddress env authInfo).isSome = true →
      outcome s (processTransaction env s tx) =
        classify env.config (body.messages.map (fun msg => msg.typeUrl)) fee.granter) := by
  have hany := any_isRelayMsg_iff body.messages
  have hcl : (body.messages.map (fun msg => msg.typeUrl)).any
      (fun t => includes t "/ibc" && t != msgTransfer)
      = body.messages.any (fun msg => isRelayMsg msg.typeUrl) := by
    induction body.messages with
    | nil => rfl
    | cons m ms ih => simp [List.any_cons, isRelayMsg, ih]
  unfold classify
  rw [hcl]
  rw [← hany]
  unfold processTransaction outcome
  simp only [hd, hb, ha, hf]
  cases hrel : body.messages.any (fun msg => isRelayMsg msg.typeUrl) <;>
    by_cases hg : fee.granter = env.config.granter_address <;>
    cases hsig : signerAddress env authInfo <;>
    simp [hg, saveGranteeMisbehaviorData, saveTransactionData]

/-- C1 (amended), at the sample `"transfer"`: only the transfer type, the
configured granter, a derivable signer, hence Misbehavior. -/
theorem outcome_of_decoded_witness :
    sampleEnv.decodeTx "transfer" = some transferTx ∧
    outcome s0 (processTransaction sampleEnv s0 "transfer") = Outcome.Misbehavior :=
  ⟨by decide,
   (outcome_of_decoded sampleEnv s0 "transfer" transferTx transferBody transferAuthInfo
      transferFee (by decide) rfl rfl rfl).2.1.mpr ⟨by decide, by decide, by decide⟩⟩

/-! ## Gas price -/

/-- C5 (as stated, refuted): `"relay0"` is a Relayer transaction with gas limit
0 and fee 250; the row `processTransaction` stores for it has `gas_price`
`Infinity`, the value of the division `250 / 0`. -/
theorem gas_price_divides_by_zero :
    sampleEnv.decodeTx "relay0" = some (sampleTx [recvPacket] "granter1" 0 [250] (some [2, 7])) ∧
    (processTransaction sampleEnv s0 "relay0").2 = true ∧
    (processTransaction sampleEnv s0 "relay0").1.relayer_transactions.map
        (fun r => (r.gas_wanted, r.fee_amount, r.gas_price)) = [(0, 250, JSNumber.infinity)] ∧
    jsDiv 250 0 = JSNumber.infinity := by
  decide

/-- C5 (amended): for every transaction handled as Relayer, the stored row has
`gas_price = feeAmount / gasWanted` computed by one unguarded division: the
exact quotient when `gasWanted > 0`, and for `gasWanted = 0` the result of the
division by zero, `Infinity` when `feeAmount > 0` and `NaN` when `feeAmount = 0`. -/
theorem stored_gas_price (env : Env) (s : State) (tx : String) (txDecoded : Tx)
    (authInfo : AuthInfo) (fee : Fee)
    (hd : env.decodeTx tx = some txDecoded) (ha : txDecoded.authInfo = some authInfo)
    (hf : authInfo.fee = some fee) (hrel : (processTransaction env s tx).2 = true) :
    ∃ row : TransactionRow,
      (processTransaction env s tx).1.relayer_transactions = s.relayer_transactions ++ [row] ∧
      row.gas_wanted = fee.gasLimit ∧ row.fee_amount = feeAmountOf fee ∧
      row.gas_price = jsDiv (feeAmountOf fee) fee.gasLimit ∧
      (0 < fee.gasLimit →
        row.gas_price = JSNumber.finite ((feeAmountOf fee : ℚ) / (fee.gasLimit : ℚ))) ∧
      (fee.gasLimit = 0 →
        row.gas_price = if feeAmountOf fee = 0 then JSNumber.nan else JSNumber.infinity) := by
  unfold processTransaction at hrel ⊢
  simp only [hd, ha, hf] at hrel ⊢
  cases hb : txDecoded.body with
  | none => simp [hb] at hrel
  | some body =>
    simp only [hb] at hrel ⊢
    cases hsig : signerAddress env authInfo with
    | none =>
      simp only [hsig] at hrel
      split at hrel
      · simp at hrel
      · split at hrel <;> simp at hrel
    | some a =>
      simp only [hsig] at hrel ⊢
      split at hrel
      · rename_i hc
        rw [if_pos hc]
        refine ⟨_, rfl, rfl, rfl, rfl, ?_, ?_⟩
        · intro hpos
          simp [jsDiv, Nat.pos_iff_ne_zero.mp hpos]
        · intro hz
          simp [jsDiv, hz]
      · split at hrel <;> simp at hrel

/-- C5 (amended), at the sample `"relay"`: gas limit 100000 and fee 250 store
the quotient `250 / 100000`. -/
theorem stored_gas_price_witness :
    sampleEnv.decodeTx "relay" = some relayTx ∧
    (processTransaction sampleEnv s0 "relay").2 = true ∧
    ∃ row : TransactionRow,
      (processTransaction sampleEnv s0 "relay").1.relayer_transactions = [row] ∧
      row.gas_price = JSNumber.finite ((250 : ℚ) / (100000 : ℚ)) := by
  refine ⟨by decide, by decide, ?_⟩
  obtain ⟨row, h1, -, -, -, h5, -⟩ :=
    stored_gas_price sampleEnv s0 "relay" relayTx relayAuthInfo relayFee
      (by decide) rfl rfl (by decide)
  refine ⟨row, by simpa [s0, startState] using h1, ?_⟩
  have h := h5 (by decide)
  simpa [feeAmountOf, relayFee] using h

/-! ## Flush and reset -/

theorem processBlock_total_metrics (env : Env) (s : State) (b : BlockData) :
    (processBlock env s b).total_metrics = s.total_metrics ++
      (if (relayerTxs env b).isEmpty then []
       else [{ block_height := s.latestBlockHeight, block_time := s.latestBlockTime,
               total_gas_wanted :=
                 (relayerTxs env b).foldl (fun acc r => jsAdd acc r.gas_wanted) s.totalGasWanted,
               total_gas_used :=
                 (relayerTxs env b).foldl (fun acc r => jsAdd acc r.gas_used) s.totalGasUsed,
               total_fee :=
                 (relayerTxs env b).foldl
                   (fun acc r => jsAdd acc (parseIntOfNumber r.fee_amount)) s.totalFee,
               transaction_count :=
                 (relayerTxs env b).foldl (fun acc _ => jsAdd acc 1) s.transactionCount }]) := by
  rw [processBlock_eq]
  split <;> simp [recordAll]

theorem processBlock_countersZero (env : Env) (s : State) (b : BlockData)
    (hz : countersZero s) : countersZero (processBlock env s b) := by
  rw [processBlock_eq]
  obtain ⟨h1, h2, h3, h4⟩ := hz
  split
  · rename_i he
    have : relayerTxs env b = [] := List.isEmpty_iff.mp he
    simp [countersZero, recordAll, this, h1, h2, h3, h4]
  · simp [countersZero]

/-- C7: whenever `processBlock` writes a row to `total_metrics`, the four
running counters are all zero in the state it returns. -/
theorem flush_resets_counters (env : Env) (s : State) (b : BlockData)
    (hflush : (processBlock env s b).total_metrics ≠ s.total_metrics) :
    countersZero (processBlock env s b) := by
  rw [processBlock_eq] at hflush ⊢
  split
  · rename_i he
    rw [if_pos he] at hflush
    simp [recordAll] at hflush
  · simp [countersZero]

/-- C7, at a sample: from counters holding 7, 0, 3 and 1, a block with one
Relayer transaction writes a snapshot and leaves all four counters at zero. -/
theorem flush_resets_counters_witness :
    (processBlock sampleEnv { s0 with totalGasWanted := 7, totalFee := 3, transactionCount := 1 }
        { txs := some ["relay"] }).total_metrics ≠
      ({ s0 with totalGasWanted := 7, totalFee := 3, transactionCount := 1 } : State).total_metrics ∧
    countersZero (processBlock sampleEnv
      { s0 with totalGasWanted := 7, totalFee := 3, transactionCount := 1 }
      { txs := some ["relay"] }) :=
  ⟨by decide, flush_resets_counters sampleEnv _ _ (by decide)⟩

/-! ## Failing transactions -/

theorem asRelayer_of_fails (env : Env) (tx : String)
    (hfail : env.decodeTx tx = none ∨
      ∃ txd a, env.decodeTx tx = some txd ∧ txd.authInfo = some a ∧ signerAddress env a = none) :
    asRelayer env tx = none ∧ asMisbehavior env tx = none := by
  unfold asRelayer asMisbehavior decodedParts
  rcases hfail with h | ⟨txd, a, hd, ha, hs⟩
  · simp [h]
  · simp only [hd, ha]
    cases txd.body with
    | none => simp
    | some body =>
      cases hf : a.fee with
      | none => simp [hf]
      | some fee => simp [hf, hs]

/-- C9: a transaction whose envelope fails to decode, or whose signer address
cannot be derived, is reported as not Relayer and changes nothing (no row, no
counter); `processBlock` gives the same result on a block containing it as on
the block with that transaction removed, the others keeping their order. -/
theorem failing_transaction_skipped (env : Env) (tx : String)
    (hfail : env.decodeTx tx = none ∨
      ∃ txd a, env.decodeTx tx = some txd ∧ txd.authInfo = some a ∧ signerAddress env a = none) :
    (∀ s, processTransaction env s tx = (s, false)) ∧
    (∀ s pre post, processBlock env s { txs := some (pre ++ tx :: post) } =
      processBlock env s { txs := some (pre ++ post) }) := by
  obtain ⟨hr, hm⟩ := asRelayer_of_fails env tx hfail
  constructor
  · intro s
    rw [processTransaction_eq, hr, hm]
  · intro s pre post
    have h1 : relayerTxs env { txs := some (pre ++ tx :: post) } =
        relayerTxs env { txs := some (pre ++ post) } := by
      simp [relayerTxs, List.filterMap_append, List.filterMap_cons, hr]
    have h2 : ∀ h t, misbehaviorRows env h t { txs := some (pre ++ tx :: post) } =
        misbehaviorRows env h t { txs := some (pre ++ post) } := by
      intro h t
      simp [misbehaviorRows, List.filterMap_append, List.filterMap_cons, hm]
    rw [processBlock_eq, processBlock_eq, h1, h2]

/-- C9, at samples: `"garbage"` does not decode and `"relayNoKey"` has no
derivable signer; a block with either between two other transactions is
processed like the block without it. -/
theorem failing_transaction_skipped_witness :
    sampleEnv.decodeTx "garbage" = none ∧
    processTransaction sampleEnv s0 "garbage" = (s0, false) ∧
    processBlock sampleEnv s0 { txs := some (["relay"] ++ "garbage" :: ["transfer"]) } =
      processBlock sampleEnv s0 { txs := some (["relay"] ++ ["transfer"]) } :=
  ⟨by decide,
   (failing_transaction_skipped sampleEnv "garbage" (Or.inl (by decide))).1 s0,
   (failing_transaction_skipped sampleEnv "garbage" (Or.inl (by decide))).2 s0 ["relay"] ["transfer"]⟩

/-! ## Aggregate conservation -/

theorem updateLatestBlockHeight_total_metrics (s : State) (latest : Option Header) :
    (updateLatestBlockHeight s latest).total_metrics = s.total_metrics := by
  cases latest <;> rfl

theorem updateLatestBlockHeight_countersZero (s : State) (latest : Option Header)
    (hz : countersZero s) : countersZero (updateLatestBlockHeight s latest) := by
  cases latest
  · exact hz
  · exact hz

theorem processBlocks_countersZero (env : Env) (bs : List (BlockData × Option Header))
    (s : State) (hz : countersZero s) : countersZero (processBlocks env s bs) := by
  induction bs generalizing s with
  | nil => exact hz
  | cons p rest ih =>
    obtain ⟨b, latest⟩ := p
    exact ih _ (updateLatestBlockHeight_countersZero _ _ (processBlock_countersZero env s b hz))

theorem processBlocks_total_metrics_grows (env : Env) (bs : List (BlockData × Option Header))
    (s : State) : ∃ rows, (processBlocks env s bs).total_metrics = s.total_metrics ++ rows := by
  induction bs generalizing s with
  | nil => exact ⟨[], by simp [processBlocks]⟩
  | cons p rest ih =>
    obtain ⟨b, latest⟩ := p
    obtain ⟨rows, hrows⟩ := ih (updateLatestBlockHeight (processBlock env s b) latest)
    rw [updateLatestBlockHeight_total_metrics, processBlock_total_metrics] at hrows
    exact ⟨_, by rw [processBlocks, hrows, List.append_assoc]⟩

theorem relayerTxsOfBlocks_of_quiet (env : Env) (bs : List (BlockData × Option Header))
    (s : State) (hquiet : (processBlocks env s bs).total_metrics = s.total_metrics) :
    relayerTxsOfBlocks env (bs.map Prod.fst) = [] := by
  induction bs generalizing s with
  | nil => rfl
  | cons p rest ih =>
    obtain ⟨b, latest⟩ := p
    obtain ⟨rows, hrows⟩ :=
      processBlocks_total_metrics_grows env rest (updateLatestBlockHeight (processBlock env s b) latest)
    have hstep := hrows
    rw [updateLatestBlockHeight_total_metrics, processBlock_total_metrics] at hrows
    rw [processBlocks, hrows, List.append_assoc] at hquiet
    have hnil := List.append_right_eq_self.mp hquiet
    obtain ⟨hb, hr⟩ := List.append_eq_nil.mp hnil
    have hbe : (relayerTxs env b).isEmpty = true := by
      by_contra hne
      rw [if_neg hne] at hb
      simp at hb
    rw [hr, List.append_nil] at hstep
    simp [relayerTxsOfBlocks, List.isEmpty_iff.mp hbe, ih _ hstep]

theorem relayerTxsOfBlocks_append (env : Env) (xs ys : List BlockData) :
    relayerTxsOfBlocks env (xs ++ ys) = relayerTxsOfBlocks env xs ++ relayerTxsOfBlocks env ys := by
  induction xs with
  | nil => rfl
  | cons x xs ih => simp [relayerTxsOfBlocks, ih]

theorem toDouble_of_le (n : Nat) (h : n ≤ 2 ^ 53) : toDouble n = n := by
  rcases Nat.lt_or_eq_of_le h with hlt | heq
  · unfold toDouble
    rw [if_pos hlt]
  · subst heq
    decide

theorem parseIntOfNumber_of_le (x : Nat) (h : x ≤ 2 ^ 53) : parseIntOfNumber x = x := by
  unfold parseIntOfNumber
  rw [if_pos (by omega)]

theorem foldl_jsAdd_exact {α : Type} (f : α → Nat) (xs : List α) (init : Nat)
    (h : init + (xs.map f).sum ≤ 2 ^ 53) :
    xs.foldl (fun acc x => jsAdd acc (f x)) init = init + (xs.map f).sum := by
  induction xs generalizing init with
  | nil => simp
  | cons x xs ih =>
    simp only [List.map_cons, List.sum_cons] at h
    have hx : jsAdd init (f x) = init + f x := toDouble_of_le _ (by omega)
    rw [List.foldl_cons, hx, ih _ (by omega)]
    simp only [List.map_cons, List.sum_cons]
    omega

theorem le_sum_of_mem {α : Type} (f : α → Nat) (xs : List α) :
    ∀ x ∈ xs, f x ≤ (xs.map f).sum := by
  induction xs with
  | nil => intro x hx; simp at hx
  | cons y ys ih =>
    intro x hx
    simp only [List.map_cons, List.sum_cons]
    rcases List.mem_cons.mp hx with rfl | hmem
    · omega
    · have := ih x hmem
      omega

theorem asRelayer_gas_used (env : Env) (tx : String) (r : RelayerTx)
    (h : asRelayer env tx = some r) : r.gas_used = 0 := by
  unfold asRelayer at h
  cases hd : decodedParts env tx with
  | none => simp [hd] at h
  | some p =>
    obtain ⟨body, authInfo, fee⟩ := p
    simp only [hd] at h
    split at h
    · cases hs : signerAddress env authInfo with
      | none => simp [hs] at h
      | some a =>
        simp only [hs, Option.some.injEq] at h
        rw [← h]
    · simp at h

theorem relayerTxs_gas_used_sum (env : Env) (b : BlockData) :
    ((relayerTxs env b).map (fun r => r.gas_used)).sum = 0 := by
  apply List.sum_eq_zero
  intro x hx
  obtain ⟨r, hr, rfl⟩ := List.mem_map.mp hx
  unfold relayerTxs at hr
  obtain ⟨tx, -, htx⟩ := List.mem_filterMap.mp hr
  exact asRelayer_gas_used env tx r htx

/-- C2 (as stated, refuted): from zeroed counters, a block with two Relayer
transactions of fee amounts `9007199254740992` (`2^53`) and `1` writes a snapshot
with `total_fee = 9007199254740992`, not their sum `9007199254740993`, because
the running total is a double; and a block with one Relayer transaction of fee
amount `10^21` writes `total_fee = 1`, because `parseInt(feeAmount, 10)` reads
the number back through its string form `1e+21`. -/
theorem snapshot_total_differs_from_sum :
    countersZero s0 ∧
    (relayerTxs sampleEnv { txs := some ["feeBig", "feeOne"] }).map (fun r => r.fee_amount) =
      [9007199254740992, 1] ∧
    (processBlock sampleEnv s0 { txs := some ["feeBig", "feeOne"] }).total_metrics.map
      (fun r => (r.total_fee, r.transaction_count)) = [(9007199254740992, 2)] ∧
    ([9007199254740992, 1] : List Nat).sum = 9007199254740993 ∧
    (relayerTxs sampleEnv { txs := some ["fee1e21"] }).map (fun r => r.fee_amount) =
      [1000000000000000000000] ∧
    (processBlock sampleEnv s0 { txs := some ["fee1e21"] }).total_metrics.map
      (fun r => (r.total_fee, r.transaction_count)) = [(1, 1)] :=
  ⟨⟨rfl, rfl, rfl, rfl⟩, by decide, by decide, by decide, by decide, by decide⟩

/-- C2 (amended): start from zeroed counters and process any blocks `pre`; let
`run` be further blocks during which no snapshot is written, and `b` the next
block.  If over the Relayer transactions of `run` and `b` (the blocks processed
since the previous snapshot) the sum of `gasWanted`, the sum of `feeAmount` and
the count are each at most `2^53`, then `processBlock` writes a snapshot for `b`
exactly when `b` has a Relayer transaction, and that snapshot's four totals are
the sums of `gasWanted`, `gasUsed`, `feeAmount` and the count over exactly those
transactions. -/
theorem aggregate_conservation (env : Env) (s : State) (hz : countersZero s)
    (pre run : List (BlockData × Option Header)) (b : BlockData)
    (hquiet : (processBlocks env (processBlocks env s pre) run).total_metrics =
      (processBlocks env s pre).total_metrics)
    (hgas : ((relayerTxsOfBlocks env (run.map Prod.fst ++ [b])).map
      (fun r => r.gas_wanted)).sum ≤ 2 ^ 53)
    (hfee : ((relayerTxsOfBlocks env (run.map Prod.fst ++ [b])).map
      (fun r => r.fee_amount)).sum ≤ 2 ^ 53)
    (hcount : (relayerTxsOfBlocks env (run.map Prod.fst ++ [b])).length ≤ 2 ^ 53) :
    (processBlock env (processBlocks env (processBlocks env s pre) run) b).total_metrics =
      (processBlocks env (processBlocks env s pre) run).total_metrics ++
        (if (relayerTxs env b).isEmpty then []
         else
          [{ block_height := (processBlocks env (processBlocks env s pre) run).latestBlockHeight,
             block_time := (processBlocks env (processBlocks env s pre) run).latestBlockTime,
             total_gas_wanted :=
               ((relayerTxsOfBlocks env (run.map Prod.fst ++ [b])).map (fun r => r.gas_wanted)).sum,
             total_gas_used :=
               ((relayerTxsOfBlocks env (run.map Prod.fst ++ [b])).map (fun r => r.gas_used)).sum,
             total_fee :=
               ((relayerTxsOfBlocks env (run.map Prod.fst ++ [b])).map (fun r => r.fee_amount)).sum,
             transaction_count := (relayerTxsOfBlocks env (run.map Prod.fst ++ [b])).length }]) := by
  have hq := relayerTxsOfBlocks_of_quiet env run _ hquiet
  have hall : relayerTxsOfBlocks env (run.map Prod.fst ++ [b]) = relayerTxs env b := by
    rw [relayerTxsOfBlocks_append, hq]
    simp [relayerTxsOfBlocks]
  rw [hall] at hgas hfee hcount ⊢
  obtain ⟨h1, h2, h3, h4⟩ :=
    processBlocks_countersZero env run _ (processBlocks_countersZero env pre s hz)
  have e1 := foldl_jsAdd_exact (fun r : RelayerTx => r.gas_wanted) (relayerTxs env b) 0
    (by omega)
  have e2 := foldl_jsAdd_exact (fun r : RelayerTx => r.gas_used) (relayerTxs env b) 0
    (by rw [relayerTxs_gas_used_sum]; omega)
  have hmap : (relayerTxs env b).map (fun r => parseIntOfNumber r.fee_amount) =
      (relayerTxs env b).map (fun r => r.fee_amount) := by
    apply List.map_congr_left
    intro r hr
    have hle : r.fee_amount ≤ ((relayerTxs env b).map (fun r => r.fee_amount)).sum :=
      le_sum_of_mem (fun r : RelayerTx => r.fee_amount) (relayerTxs env b) r hr
    exact parseIntOfNumber_of_le _ (by omega)
  have e3 := foldl_jsAdd_exact (fun r : RelayerTx => parseIntOfNumber r.fee_amount)
    (relayerTxs env b) 0 (by rw [hmap]; omega)
  have e4 := foldl_jsAdd_exact (fun _ : RelayerTx => 1) (relayerTxs env b) 0
    (by simp; omega)
  rw [processBlock_total_metrics, h1, h2, h3, h4, e1, e2, e3, e4, hmap]
  simp

/-- C2 (amended), at a sample: after a block with only Misbehavior and
Irrelevant transactions, a block with two Relayer transactions (gas 100000 and
fee 250 each) writes the snapshot `(200000, 0, 500, 2)`. -/
theorem aggregate_conservation_witness :
    countersZero s0 ∧
    (processBlocks sampleEnv (processBlocks sampleEnv s0 [])
        [({ txs := some ["transfer", "other"] }, some { height := 100, time := "t100" })]).total_metrics =
      (processBlocks sampleEnv s0 []).total_metrics ∧
    (processBlock sampleEnv
        (processBlocks sampleEnv (processBlocks sampleEnv s0 [])
          [({ txs := some ["transfer", "other"] }, some { height := 100, time := "t100" })])
        { txs := some ["relay", "transfer", "relay"] }).total_metrics =
      [{ block_height := 100, block_time := "t100", total_gas_wanted := 200000,
         total_gas_used := 0, total_fee := 500, transaction_count := 2 }] :=
  ⟨⟨rfl, rfl, rfl, rfl⟩, by decide,
   (aggregate_conservation sampleEnv s0 ⟨rfl, rfl, rfl, rfl⟩ []
      [({ txs := some ["transfer", "other"] }, some { height := 100, time := "t100" })]
      { txs := some ["relay", "transfer", "relay"] } (by decide) (by decide) (by decide)
      (by decide)).trans (by decide)⟩

/-! ## Blocks without Relayer transaction -/

theorem outcome_misbehavior_iff (env : Env) (s : State) (tx : String) :
    outcome s (processTransaction env s tx) = Outcome.Misbehavior ↔
      (asMisbehavior env tx).isSome = true := by
  rw [processTransaction_eq]
  cases hr : asRelayer env tx with
  | some r => simp [outcome, asMisbehavior_of_asRelayer env tx r hr]
  | none =>
    cases hm : asMisbehavior env tx with
    | some p => simp [outcome, recordAll]
    | none => simp [outcome]

theorem asRelayer_of_returns_false (env : Env) (s : State) (tx : String)
    (h : (processTransaction env s tx).2 = false) : asRelayer env tx = none := by
  rw [processTransaction_eq] at h
  cases hr : asRelayer env tx with
  | some r => simp [hr] at h
  | none => rfl

theorem processTransaction_snd_indep (env : Env) (s s' : State) (tx : String) :
    (processTransaction env s tx).2 = (processTransaction env s' tx).2 := by
  rw [processTransaction_eq, processTransaction_eq]
  cases asRelayer env tx with
  | some r => rfl
  | none => cases asMisbehavior env tx <;> rfl

theorem length_filterMap_eq_countP {α β : Type} (f : α → Option β) (l : List α) :
    (l.filterMap f).length = l.countP (fun a => (f a).isSome) := by
  induction l with
  | nil => rfl
  | cons a l ih =>
    cases h : f a <;> simp [List.filterMap_cons, List.countP_cons, h, ih]

theorem quietBlockEffect_processBlock (env : Env) (s : State) (block : Block)
    (hquiet : ∀ tx ∈ block.data.txs.getD [], ∀ s, (processTransaction env s tx).2 = false) :
    QuietBlockEffect env s
      (saveLastBlockData (processBlock env s block.data) block.header.height block.header.time)
      block := by
  have hrel : relayerTxs env block.data = [] := by
    unfold relayerTxs
    rw [List.filterMap_eq_nil_iff]
    intro tx htx
    exact asRelayer_of_returns_false env s tx (hquiet tx htx s)
  have hcount : (misbehaviorRows env s.latestBlockHeight s.latestBlockTime block.data).length =
      (block.data.txs.getD []).countP
        (fun tx => decide (outcome s (processTransaction env s tx) = Outcome.Misbehavior)) := by
    unfold misbehaviorRows
    rw [List.length_map, length_filterMap_eq_countP]
    congr 1
    funext tx
    simp [outcome_misbehavior_iff]
  rw [processBlock_eq, hrel]
  refine ⟨?_, ?_, ?_, ?_, ?_, ?_, ?_, ?_, hcount⟩ <;> simp [saveLastBlockData, recordAll]

/-- C8: when the fetch of `currentHeight` succeeds with a block none of whose
transactions is handled as Relayer (no transaction list, an empty one, or only
Misbehavior, Irrelevant and failing transactions), one catch-up iteration, and
likewise one polling tick that is not yet caught up, writes exactly one
checkpoint row (the header's height and time), no `total_metrics` row and no
`relayer_transactions` row, leaves the four counters unchanged, and appends
one `grantee_misbehaviors` row per Misbehavior transaction of the block. -/
theorem quiet_block_step (env : Env) (rpc : Rpc) (l : Loop) (block : Block)
    (hfetch : rpc.getBlock l.currentHeight = some block)
    (hquiet : ∀ tx ∈ block.data.txs.getD [], ∀ s, (processTransaction env s tx).2 = false) :
    QuietBlockEffect env l.st (catchUpIteration env rpc l).st block ∧
    (l.currentHeight ≤ (updateLatestBlockHeight l.st rpc.latest).latestBlockHeight →
      ∃ l', pollTick env rpc l = TickResult.done l' ∧
        QuietBlockEffect env (updateLatestBlockHeight l.st rpc.latest) l'.st block) := by
  constructor
  · have h := quietBlockEffect_processBlock env l.st block hquiet
    unfold catchUpIteration
    simp only [hfetch]
    unfold QuietBlockEffect at h ⊢
    cases rpc.latest <;> simp only [updateLatestBlockHeight] <;> split <;> exact h
  · intro hle
    refine ⟨{ st := saveLastBlockData
                (processBlock env (updateLatestBlockHeight l.st rpc.latest) block.data)
                block.header.height block.header.time,
              currentHeight := l.currentHeight + 1 }, ?_,
            quietBlockEffect_processBlock env _ block hquiet⟩
    unfold pollTick
    simp only [hfetch]
    rw [if_pos hle]

/-- C8, at a sample: block 101 holds a Misbehavior, an Irrelevant and an
undecodable transaction; the catch-up iteration writes one checkpoint and one
Misbehavior row and nothing else. -/
theorem quiet_block_step_witness :
    rpc100.getBlock 101 = some block101 ∧
    (catchUpIteration sampleEnv rpc100 { st := s0, currentHeight := 101 }).st.last_block =
      [{ block_height := 101, block_time := "2024-01-01T00:00:06Z" }] ∧
    (catchUpIteration sampleEnv rpc100 { st := s0, currentHeight := 101 }).st.total_metrics = [] ∧
    (catchUpIteration sampleEnv rpc100 { st := s0, currentHeight := 101 }).st.relayer_transactions = [] ∧
    (catchUpIteration sampleEnv rpc100 { st := s0, currentHeight := 101 }).st.grantee_misbehaviors.length = 1 := by
  have h := (quiet_block_step sampleEnv rpc100 { st := s0, currentHeight := 101 } block101 (by decide)
    (fun tx htx s => (processTransaction_snd_indep sampleEnv s s0 tx).trans
      ((by decide : ∀ tx ∈ block101.data.txs.getD [],
          (processTransaction sampleEnv s0 tx).2 = false) tx htx))).1
  obtain ⟨h1, h2, h3, -, -, -, -, h8, h9⟩ := h
  refine ⟨by decide, h1, h2, h3, ?_⟩
  rw [h8, List.length_append, h9]
  decide

/-! ## Fetch failure in the catch-up loop -/

theorem catchUpIteration_currentHeight (env : Env) (rpc : Rpc) (l : Loop) :
    (catchUpIteration env rpc l).currentHeight = l.currentHeight + 1 := rfl

theorem le_of_mem_catchUpFetches (env : Env) (rpcs : List Rpc) (l : Loop) :
    ∀ h ∈ catchUpFetches env rpcs l, l.currentHeight ≤ h := by
  induction rpcs generalizing l with
  | nil => intro h hh; simp [catchUpFetches] at hh
  | cons rpc rest ih =>
    intro h hh
    unfold catchUpFetches at hh
    split at hh
    · rcases List.mem_cons.mp hh with rfl | hmem
      · exact Nat.le_refl _
      · have := ih (catchUpIteration env rpc l) h hmem
        rw [catchUpIteration_currentHeight] at this
        omega
    · simp at hh

/-- C3 (as stated, refuted): with current height 7 and a node whose block
requests fail, one catch-up iteration ends with `currentHeight = 8`, and the
loop's successive fetches are of heights 7 and then 8, not 7 again. -/
theorem failed_fetch_advances_height :
    failingRpc.getBlock 7 = none ∧
    (catchUpIteration sampleEnv failingRpc { st := s0, currentHeight := 7 }).currentHeight = 8 ∧
    (catchUpIteration sampleEnv failingRpc { st := s0, currentHeight := 7 }).st.isCatchingUp = true ∧
    catchUpFetches sampleEnv [failingRpc, failingRpc] { st := s0, currentHeight := 7 } = [7, 8] := by
  decide

/-- C3 (amended): in the catch-up loop, an iteration whose `getBlock` fails at
height `H` writes no checkpoint row (and no other row, and changes no counter),
but it does advance `currentHeight` to `H + 1`; every later fetch of the loop
is of a height above `H`, so `H` is not fetched again. -/
theorem failed_fetch_skips_height (env : Env) (rpc : Rpc) (l : Loop)
    (hfail : rpc.getBlock l.currentHeight = none) :
    (catchUpIteration env rpc l).currentHeight = l.currentHeight + 1 ∧
    SameStore l.st (catchUpIteration env rpc l).st ∧
    ∀ rest, ∀ h ∈ catchUpFetches env rest (catchUpIteration env rpc l), l.currentHeight < h := by
  refine ⟨rfl, ?_, ?_⟩
  · unfold catchUpIteration SameStore
    simp only [hfail]
    cases rpc.latest <;> simp only [updateLatestBlockHeight] <;> split <;> simp
  · intro rest h hh
    have := le_of_mem_catchUpFetches env rest _ h hh
    rw [catchUpIteration_currentHeight] at this
    omega

/-- C3 (amended), at the sample node whose block requests fail. -/
theorem failed_fetch_skips_height_witness :
    failingRpc.getBlock 7 = none ∧
    (catchUpIteration sampleEnv failingRpc { st := s0, currentHeight := 7 }).currentHeight = 7 + 1 ∧
    (catchUpIteration sampleEnv failingRpc { st := s0, currentHeight := 7 }).st.last_block =
      s0.last_block :=
  ⟨by decide,
   (failed_fetch_skips_height sampleEnv failingRpc { st := s0, currentHeight := 7 } (by decide)).1,
   (failed_fetch_skips_height sampleEnv failingRpc { st := s0, currentHeight := 7 } (by decide)).2.1.1⟩

/-! ## Resume height -/

theorem first_fetch_is_resumeHeight (env : Env) (rpc : Rpc) (rest : List Rpc)
    (txs : List TransactionRow) (tm : List TotalMetricsRow) (lb : List LastBlockRow)
    (gm : List MisbehaviorRow) :
    (catchUpFetches env (rpc :: rest) (indexerStart env.config txs tm lb gm)).head? =
      some (resumeHeight env.config lb) := rfl

/-- C4 (as stated, refuted): with the single checkpoint of height 0 in
`last_block` and configured start height 500, the first height fetched is 500,
not `0 + 1`. -/
theorem zero_checkpoint_restarts_at_start_height :
    ([({ block_height := 0, block_time := "t0" } : LastBlockRow)].map
        (fun r => r.block_height)).max? = some 0 ∧
    sampleEnv.config.indexer_start_block_height = 500 ∧
    resumeHeight sampleEnv.config [{ block_height := 0, block_time := "t0" }] = 500 ∧
    resumeHeight sampleEnv.config [{ block_height := 0, block_time := "t0" }] ≠ 0 + 1 := by
  decide

/-- C4 (amended): the first height fetched after startup is `maxHeight + 1`
for every maximum checkpoint height `maxHeight ≥ 1`; it is the configured
`indexer_start_block_height` when `last_block` holds no checkpoint and also
when the maximum checkpoint height is 0 or the database read fails. -/
theorem resume_height (cfg : Config) (last_block : List LastBlockRow) :
    (last_block = [] → resumeHeight cfg last_block = cfg.indexer_start_block_height) ∧
    (∀ maxHeight, maxHeight ∈ last_block.map (fun r => r.block_height) →
      (∀ h ∈ last_block.map (fun r => r.block_height), h ≤ maxHeight) →
      (1 ≤ maxHeight → resumeHeight cfg last_block = maxHeight + 1) ∧
      (maxHeight = 0 → resumeHeight cfg last_block = cfg.indexer_start_block_height)) ∧
    initialHeight cfg (getLatestBlockHeightFromDB cfg QueryResult.error) =
      cfg.indexer_start_block_height := by
  refine ⟨?_, ?_, rfl⟩
  · intro h
    subst h
    rfl
  · intro m hm hmax
    have hsome : (last_block.map (fun r => r.block_height)).max? = some m :=
      List.max?_eq_some_iff'.mpr ⟨hm, hmax⟩
    unfold resumeHeight selectMaxHeight
    rw [hsome]
    constructor
    · intro h1
      have : m ≠ 0 := by omega
      simp [getLatestBlockHeightFromDB, initialHeight, this]
    · intro h0
      simp [getLatestBlockHeightFromDB, initialHeight, h0]

/-- C4 (amended), at checkpoints of heights 41, 42 and 40: the indexer resumes at 43. -/
theorem resume_height_witness :
    resumeHeight sampleEnv.config
      [{ block_height := 41, block_time := "a" }, { block_height := 42, block_time := "b" },
       { block_height := 40, block_time := "c" }] = 42 + 1 :=
  ((resume_height sampleEnv.config
      [{ block_height := 41, block_time := "a" }, { block_height := 42, block_time := "b" },
       { block_height := 40, block_time := "c" }]).2.1 42 (by decide) (by decide)).1 (by decide)

/-! ## Polling -/

/-- C6 (as stated, refuted): a tick that starts with `currentHeight = 5` while
the tip is 7, every fetch succeeding, handles height 5 only: it ends with
`currentHeight = 6`, not 8, and has written the single checkpoint of height 5. -/
theorem poll_tick_stops_after_one_block :
    (pollTick sampleEnv tipRpc { st := s0, currentHeight := 5 }).loop.st.latestBlockHeight = 7 ∧
    (pollTick sampleEnv tipRpc { st := s0, currentHeight := 5 }).loop.currentHeight = 6 ∧
    (pollTick sampleEnv tipRpc { st := s0, currentHeight := 5 }).loop.currentHeight ≠ 7 + 1 ∧
    (pollTick sampleEnv tipRpc { st := s0, currentHeight := 5 }).loop.st.last_block =
      [{ block_height := 5, block_time := "t" }] := by
  decide

/-- C6 (amended): a polling tick that, after the refresh, starts with
`currentHeight ≤ latestBlockHeight` and whose fetch succeeds handles exactly
one block, the one fetched for `currentHeight` (`processBlock`, then its
checkpoint), and ends with `currentHeight + 1`, which is `latestBlockHeight + 1`
only if the tick started at the tip; a tick that starts with
`currentHeight > latestBlockHeight` changes nothing but the refreshed tip and
leaves `currentHeight` unchanged. -/
theorem poll_tick_one_height (env : Env) (rpc : Rpc) (l : Loop) :
    (∀ block, l.currentHeight ≤ (updateLatestBlockHeight l.st rpc.latest).latestBlockHeight →
      rpc.getBlock l.currentHeight = some block →
      pollTick env rpc l = TickResult.done
        { st := saveLastBlockData
                  (processBlock env (updateLatestBlockHeight l.st rpc.latest) block.data)
                  block.header.height block.header.time,
          currentHeight := l.currentHeight + 1 } ∧
      ((pollTick env rpc l).loop.currentHeight =
          (pollTick env rpc l).loop.st.latestBlockHeight + 1 ↔
        l.currentHeight = (updateLatestBlockHeight l.st rpc.latest).latestBlockHeight)) ∧
    ((updateLatestBlockHeight l.st rpc.latest).latestBlockHeight < l.currentHeight →
      pollTick env rpc l = TickResult.done
        { st := updateLatestBlockHeight l.st rpc.latest, currentHeight := l.currentHeight }) := by
  constructor
  · intro block hle hfetch
    have hp : pollTick env rpc l = TickResult.done
        { st := saveLastBlockData
                  (processBlock env (updateLatestBlockHeight l.st rpc.latest) block.data)
                  block.header.height block.header.time,
          currentHeight := l.currentHeight + 1 } := by
      unfold pollTick
      simp only [hfetch]
      rw [if_pos hle]
    refine ⟨hp, ?_⟩
    have hlat : (saveLastBlockData
        (processBlock env (updateLatestBlockHeight l.st rpc.latest) block.data)
        block.header.height block.header.time).latestBlockHeight =
        (updateLatestBlockHeight l.st rpc.latest).latestBlockHeight := by
      rw [processBlock_eq]
      split <;> simp [saveLastBlockData, recordAll]
    rw [hp]
    simp only [TickResult.loop, hlat]
    omega
  · intro hlt
    unfold pollTick
    simp only
    rw [if_neg (by omega)]

/-- C6 (amended), at the sample tick: from height 5 with the tip at 7 the tick
ends at height 6. -/
theorem poll_tick_one_height_witness :
    (5 : Nat) ≤ (updateLatestBlockHeight s0 tipRpc.latest).latestBlockHeight ∧
    (pollTick sampleEnv tipRpc { st := s0, currentHeight := 5 }).loop.currentHeight = 5 + 1 :=
  ⟨by decide,
   congrArg (fun r => r.loop.currentHeight)
     ((poll_tick_one_height sampleEnv tipRpc { st := s0, currentHeight := 5 }).1
        { header := { height := 5, time := "t" }, data := { txs := some [] } }
        (by decide) (by decide)).1⟩

/-! ## Height and time carried by the rows -/

/-- C10 (code evaluated at the failing input): the first catch-up iteration,
fetching block 100 with one Relayer and one Misbehavior transaction, writes the
checkpoint with the header's height 100 and time, but the transaction row, the
misbehaviour row and the snapshot all carry height 0 and the empty time, the
values of `latestBlockHeight` and `latestBlockTime` before the first refresh. -/
theorem rows_carry_latest_height :
    rpc100.getBlock 100 = some block100 ∧
    (catchUpIteration sampleEnv rpc100 { st := s0, currentHeight := 100 }).st.last_block =
      [{ block_height := 100, block_time := "2024-01-01T00:00:00Z" }] ∧
    (catchUpIteration sampleEnv rpc100 { st := s0, currentHeight := 100 }).st.relayer_transactions.map
      (fun r => (r.block_height, r.block_time)) = [(0, "")] ∧
    (catchUpIteration sampleEnv rpc100 { st := s0, currentHeight := 100 }).st.grantee_misbehaviors.map
      (fun r => (r.block_height, r.block_time)) = [(0, "")] ∧
    (catchUpIteration sampleEnv rpc100 { st := s0, currentHeight := 100 }).st.total_metrics.map
      (fun r => (r.block_height, r.block_time)) = [(0, "")] := by
  decide

end Indexer
